import Mathlib

/-!
Shallow embedding of the notebook-visualization pipeline
(src/main.py and src/generate_site.py) and proofs of the stated
properties of its specification.

Strings from the Python side are embedded as `List Char`; Python
substring membership (`pat in s`) is `pat <:+: s`; `str.lower()` is
`List.map Char.toLower` (all keywords are ASCII).
-/

/-- One captured output of a code cell (src/main.py, cell outputs):
an output-type tag and its payload. -/
structure Output where
  output_type : String
  payload : List Char
deriving DecidableEq

/-- One notebook cell: a cell-type tag, the source text, and the list of
captured outputs (empty when the cell carries none). -/
structure Cell where
  cell_type : String
  source : List Char
  outputs : List Output
deriving DecidableEq

/-- The "ml_components" dictionary built by
NotebookProcessor._identify_ml_components (src/main.py lines 82-87). -/
structure MLComponents where
  preprocessing : List (List Char)
  model_type : Option String
  training : Bool
  evaluation : Bool
deriving DecidableEq

/-- Python str.lower() on ASCII text. -/
def lower (s : List Char) : List Char := s.map Char.toLower

/-- Python substring test: `p in t`. -/
def hasSub (t p : List Char) : Bool := decide (p <:+: t)

/-- The initial value of the ml_components dictionary
(src/main.py lines 82-87). -/
def initComponents : MLComponents :=
  { preprocessing := [], model_type := none, training := false, evaluation := false }

/-- One iteration of the cell loop of
NotebookProcessor._identify_ml_components (src/main.py lines 89-109). -/
def identifyStep (acc : MLComponents) (cell : Cell) : MLComponents :=
  if cell.cell_type = "code" then
    let t := lower cell.source
    let a1 :=
      if hasSub t "scale".toList || hasSub t "normalize".toList || hasSub t "preprocess".toList
      then { acc with preprocessing := acc.preprocessing ++ [cell.source] } else acc
    let a2 :=
      if hasSub t "logistic_regression".toList then
        { a1 with model_type := some "Logistic Regression" }
      else if hasSub t "random_forest".toList then
        { a1 with model_type := some "Random Forest" }
      else if hasSub t "neural_network".toList || hasSub t "tensorflow".toList then
        { a1 with model_type := some "Neural Network" }
      else a1
    let a3 := if hasSub t "model.fit".toList then { a2 with training := true } else a2
    if hasSub t "accuracy_score".toList || hasSub t "classification_report".toList then
      { a3 with evaluation := true }
    else a3
  else acc

/-- NotebookProcessor._identify_ml_components (src/main.py lines 69-111),
as a fold of the per-cell step over the cells of the notebook. -/
def identify_ml_components (cells : List Cell) : MLComponents :=
  cells.foldl identifyStep initComponents

/-- Output types retained by NotebookProcessor._process_cell_output
(src/main.py line 122). -/
def recognizedOutput (o : Output) : Bool :=
  decide (o.output_type ∈ (["stream", "display_data", "execute_result"] : List String))

/-- NotebookProcessor._process_cell_output (src/main.py lines 113-124):
the first output of the cell with a recognized output type, else none. -/
def process_cell_output (cell : Cell) : Option Output :=
  cell.outputs.find? recognizedOutput

/-- The processed_content dictionary of
NotebookProcessor.extract_notebook_content (src/main.py lines 51-56). -/
structure ExtractedContent where
  code_cells : List (List Char)
  markdown_cells : List (List Char)
  outputs : List (Option Output)
  ml_components : MLComponents
deriving DecidableEq

/-- One iteration of the cell loop of
NotebookProcessor.extract_notebook_content (src/main.py lines 58-66). -/
def extractStep (acc : ExtractedContent) (cell : Cell) : ExtractedContent :=
  if cell.cell_type = "code" then
    { acc with code_cells := acc.code_cells ++ [cell.source],
               outputs := acc.outputs ++ [process_cell_output cell] }
  else if cell.cell_type = "markdown" then
    { acc with markdown_cells := acc.markdown_cells ++ [cell.source] }
  else acc

/-- NotebookProcessor.extract_notebook_content (src/main.py lines 41-67)
on an already-parsed notebook. -/
def extract_notebook_content (cells : List Cell) : ExtractedContent :=
  cells.foldl extractStep
    { code_cells := [], markdown_cells := [], outputs := [],
      ml_components := identify_ml_components cells }

/-- Bool test for the code cell-type tag. -/
def isCodeCell (c : Cell) : Bool := decide (c.cell_type = "code")

/-- Bool test for the markdown cell-type tag. -/
def isMarkdownCell (c : Cell) : Bool := decide (c.cell_type = "markdown")

/-- The per-cell model-type rule as the spec states it: the exclusive
if/elif chain of src/main.py lines 98-103 on an already-lowered text. -/
def modelRule (t : List Char) : Option String :=
  if hasSub t "logistic_regression".toList then some "Logistic Regression"
  else if hasSub t "random_forest".toList then some "Random Forest"
  else if hasSub t "neural_network".toList || hasSub t "tensorflow".toList then
    some "Neural Network"
  else none

/-- A cell that matches some model-type rule. -/
def matchesModelRule (c : Cell) : Bool :=
  isCodeCell c && (modelRule (lower c.source)).isSome

/-- The model type determined by the last code cell whose lowered source
matches any model-type rule (the statement of the specification,
to be compared with the classifier itself). -/
def lastMatchModelType (cells : List Cell) : Option String :=
  match (cells.filter matchesModelRule).getLast? with
  | some c => modelRule (lower c.source)
  | none => none

lemma identifyStep_nonCode (acc : MLComponents) (c : Cell) (h : ¬ c.cell_type = "code") :
    identifyStep acc c = acc := by
  simp [identifyStep, h]

lemma identifyStep_model_type (acc : MLComponents) (c : Cell) :
    (identifyStep acc c).model_type =
      if c.cell_type = "code" then
        (modelRule (lower c.source)).or acc.model_type
      else acc.model_type := by
  by_cases h : c.cell_type = "code"
  · simp only [identifyStep, modelRule, h, if_true]
    split_ifs <;> simp [Option.or]
  · simp [identifyStep, h]

lemma identifyStep_training (acc : MLComponents) (c : Cell) :
    (identifyStep acc c).training =
      (acc.training || (isCodeCell c && hasSub (lower c.source) "model.fit".toList)) := by
  by_cases h : c.cell_type = "code"
  · simp only [identifyStep, isCodeCell, h, if_true, decide_True]
    split_ifs <;> simp_all
  · simp [identifyStep, isCodeCell, h]

lemma identify_foldl_training (cells : List Cell) (acc : MLComponents) :
    (cells.foldl identifyStep acc).training =
      (acc.training || cells.any fun c => isCodeCell c && hasSub (lower c.source) "model.fit".toList) := by
  induction cells generalizing acc with
  | nil => simp
  | cons c l ih => simp [ih, identifyStep_training, Bool.or_assoc]

/-- C1: the model_type produced by the classifier equals the model type
determined by the last code cell (in notebook order) whose lower-cased
source matches any model-type rule, rules tested per cell in the
exclusive order logistic_regression, random_forest,
neural_network-or-tensorflow; with no matching cell it stays unset. -/
theorem classifier_model_type_last_match (cells : List Cell) :
    (identify_ml_components cells).model_type = lastMatchModelType cells := by
  induction cells using List.reverseRecOn with
  | nil => rfl
  | append_singleton l c ih =>
    have hstep : (identify_ml_components (l ++ [c])).model_type =
        if c.cell_type = "code" then
          (modelRule (lower c.source)).or (identify_ml_components l).model_type
        else (identify_ml_components l).model_type := by
      unfold identify_ml_components
      rw [List.foldl_append]
      simpa using identifyStep_model_type (l.foldl identifyStep initComponents) c
    rw [hstep, ih]
    unfold lastMatchModelType
    rw [List.filter_append]
    by_cases hm : matchesModelRule c = true
    · have hc : c.cell_type = "code" := by
        have h2 := hm
        simp [matchesModelRule, isCodeCell, Bool.and_eq_true] at h2
        exact h2.1
      have hs : (modelRule (lower c.source)).isSome = true := by
        have h2 := hm
        simp [matchesModelRule, Bool.and_eq_true] at h2
        exact h2.2
      obtain ⟨v, hv⟩ := Option.isSome_iff_exists.mp hs
      simp [hm, hc, hv, Option.or]
    · have hnil : List.filter matchesModelRule [c] = [] := by
        simp [List.filter, Bool.eq_false_iff.mpr hm]
      by_cases hc : c.cell_type = "code"
      · have hnone : modelRule (lower c.source) = none := by
          have h2 := hm
          simp [matchesModelRule, hc, isCodeCell, Bool.and_eq_true] at h2
          exact Option.not_isSome_iff_eq_none.mp (by simpa using h2)
        simp [hc, hnone, hnil, Option.or]
      · simp [hc, hnil]

/-- A code cell whose raw source spells model.fit with a capital M:
its lower-cased text contains the keyword but the raw text does not. -/
def cellUpperFit : Cell :=
  { cell_type := "code", source := "Model.fit(X, y)".toList, outputs := [] }

/-- C2, counterexample: the claim reads the training flag as tracking a
literal substring of the raw source, but the classifier tests the
lower-cased source; on a cell spelled Model.fit the flag is set while no
raw source contains the keyword, so the stated iff fails. -/
theorem training_literal_substring_counterexample :
    ¬ (((identify_ml_components [cellUpperFit]).training = true) ↔
       (∃ c ∈ [cellUpperFit], c.cell_type = "code" ∧
          ("model.fit".toList <:+: c.source))) := by decide

/-- C2, amended: the training flag is true iff some code cell has the
keyword model.fit as a substring of its lower-cased source; during the
scan the flag is monotone, never reset by a later cell. -/
theorem training_iff_lower_contains_model_fit (cells : List Cell) :
    (((identify_ml_components cells).training = true) ↔
      (∃ c ∈ cells, c.cell_type = "code" ∧
         ("model.fit".toList <:+: lower c.source))) ∧
    (∀ l₁ l₂ : List Cell, cells = l₁ ++ l₂ →
      (identify_ml_components l₁).training = true →
      (identify_ml_components cells).training = true) := by
  constructor
  · rw [identify_ml_components, identify_foldl_training]
    simp [List.any_eq_true, isCodeCell, hasSub, Bool.and_eq_true, initComponents]
  · intro l₁ l₂ hsplit h1
    subst hsplit
    rw [identify_ml_components, List.foldl_append, identify_foldl_training]
    rw [identify_ml_components] at h1
    simp [h1]

/-- A code cell that calls model.fit in lower case. -/
def cellLowerFit : Cell :=
  { cell_type := "code", source := "model.fit(X_train, y_train)".toList, outputs := [] }

/-- C2, witness for the amended theorem at a concrete notebook. -/
theorem training_iff_lower_contains_model_fit_witness :
    (identify_ml_components [cellLowerFit]).training = true :=
  ((training_iff_lower_contains_model_fit [cellLowerFit]).1).mpr
    ⟨cellLowerFit, by decide, by decide, by decide⟩

lemma extractStep_code_cells (acc : ExtractedContent) (c : Cell) :
    (extractStep acc c).code_cells =
      if isCodeCell c then acc.code_cells ++ [c.source] else acc.code_cells := by
  simp only [extractStep, isCodeCell]
  split_ifs <;> simp_all

lemma extractStep_outputs (acc : ExtractedContent) (c : Cell) :
    (extractStep acc c).outputs =
      if isCodeCell c then acc.outputs ++ [process_cell_output c] else acc.outputs := by
  simp only [extractStep, isCodeCell]
  split_ifs <;> simp_all

lemma extractStep_markdown_cells (acc : ExtractedContent) (c : Cell) :
    (extractStep acc c).markdown_cells =
      if isMarkdownCell c then acc.markdown_cells ++ [c.source]
      else acc.markdown_cells := by
  simp only [extractStep, isCodeCell, isMarkdownCell]
  split_ifs <;> simp_all

lemma extractStep_ml_components (acc : ExtractedContent) (c : Cell) :
    (extractStep acc c).ml_components = acc.ml_components := by
  simp only [extractStep]
  split_ifs <;> rfl

lemma extract_foldl_code (cells : List Cell) (acc : ExtractedContent) :
    (cells.foldl extractStep acc).code_cells =
      acc.code_cells ++ (cells.filter isCodeCell).map Cell.source := by
  induction cells generalizing acc with
  | nil => simp
  | cons c l ih =>
    by_cases h : isCodeCell c <;>
      simp [List.filter_cons, h, ih, extractStep_code_cells, List.append_assoc]

lemma extract_foldl_outputs (cells : List Cell) (acc : ExtractedContent) :
    (cells.foldl extractStep acc).outputs =
      acc.outputs ++ (cells.filter isCodeCell).map process_cell_output := by
  induction cells generalizing acc with
  | nil => simp
  | cons c l ih =>
    by_cases h : isCodeCell c <;>
      simp [List.filter_cons, h, ih, extractStep_outputs, List.append_assoc]

lemma extract_foldl_markdown (cells : List Cell) (acc : ExtractedContent) :
    (cells.foldl extractStep acc).markdown_cells =
      acc.markdown_cells ++ (cells.filter isMarkdownCell).map Cell.source := by
  induction cells generalizing acc with
  | nil => simp
  | cons c l ih =>
    by_cases h : isMarkdownCell c <;>
      simp [List.filter_cons, h, ih, extractStep_markdown_cells, List.append_assoc]

lemma extractStep_other (acc : ExtractedContent) (c : Cell)
    (h1 : ¬ c.cell_type = "code") (h2 : ¬ c.cell_type = "markdown") :
    extractStep acc c = acc := by
  simp [extractStep, h1, h2]

/-- C3: the extractor routes cells by type: each code cell contributes
its source to code_cells and its first recognized output, or none, to
outputs; each markdown cell contributes its source to markdown_cells;
a cell of any other type is skipped, leaving the whole extraction
result unchanged. -/
theorem extract_routes_cells_by_type (cells : List Cell) :
    (extract_notebook_content cells).code_cells =
        (cells.filter isCodeCell).map Cell.source ∧
    (extract_notebook_content cells).outputs =
        (cells.filter isCodeCell).map process_cell_output ∧
    (extract_notebook_content cells).markdown_cells =
        (cells.filter isMarkdownCell).map Cell.source ∧
    (∀ pre post : List Cell, ∀ c : Cell,
        ¬ c.cell_type = "code" → ¬ c.cell_type = "markdown" →
        extract_notebook_content (pre ++ c :: post) =
          extract_notebook_content (pre ++ post)) := by
  refine ⟨?_, ?_, ?_, ?_⟩
  · rw [extract_notebook_content, extract_foldl_code]
    simp
  · rw [extract_notebook_content, extract_foldl_outputs]
    simp
  · rw [extract_notebook_content, extract_foldl_markdown]
    simp
  · intro pre post c h1 h2
    have hml : identify_ml_components (pre ++ c :: post) =
        identify_ml_components (pre ++ post) := by
      rw [identify_ml_components, identify_ml_components, List.foldl_append,
        List.foldl_append, List.foldl_cons, identifyStep_nonCode _ _ h1]
    rw [extract_notebook_content, extract_notebook_content, hml,
      List.foldl_append, List.foldl_append, List.foldl_cons,
      extractStep_other _ _ h1 h2]

/-- C3, witness: a raw cell between a markdown and a code cell is
skipped without error. -/
theorem extract_routes_cells_by_type_witness :
    extract_notebook_content
        [{ cell_type := "markdown", source := "# t".toList, outputs := [] },
         { cell_type := "raw", source := "x".toList, outputs := [] },
         { cell_type := "code", source := "print(1)".toList, outputs := [] }] =
      extract_notebook_content
        [{ cell_type := "markdown", source := "# t".toList, outputs := [] },
         { cell_type := "code", source := "print(1)".toList, outputs := [] }] :=
  (extract_routes_cells_by_type []).2.2.2
    [{ cell_type := "markdown", source := "# t".toList, outputs := [] }]
    [{ cell_type := "code", source := "print(1)".toList, outputs := [] }]
    { cell_type := "raw", source := "x".toList, outputs := [] }
    (by decide) (by decide)

/-- C10: for every parsed notebook, the outputs sequence of the
extraction result has the same length as the code_cells sequence; the
entry at each position is the first output of the corresponding code
cell whose output_type is stream, display_data or execute_result (none
when the cell has no such output); and every retained output has a
recognized type, so an error output is never retained. -/
theorem extract_outputs_invariant (cells : List Cell) :
    (extract_notebook_content cells).outputs.length =
        (extract_notebook_content cells).code_cells.length ∧
    (∀ i : Nat, (extract_notebook_content cells).outputs[i]? =
        ((cells.filter isCodeCell)[i]?).map
          (fun c => c.outputs.find? recognizedOutput)) ∧
    (∀ o : Output, some o ∈ (extract_notebook_content cells).outputs →
        recognizedOutput o = true ∧ ¬ o.output_type = "error") := by
  have hout : (extract_notebook_content cells).outputs =
      (cells.filter isCodeCell).map process_cell_output := by
    rw [extract_notebook_content, extract_foldl_outputs]
    simp
  have hcode : (extract_notebook_content cells).code_cells =
      (cells.filter isCodeCell).map Cell.source := by
    rw [extract_notebook_content, extract_foldl_code]
    simp
  refine ⟨?_, ?_, ?_⟩
  · rw [hout, hcode, List.length_map, List.length_map]
  · intro i
    rw [hout, List.getElem?_map]
    rfl
  · intro o hmem
    rw [hout] at hmem
    obtain ⟨c, hc, hpc⟩ := List.mem_map.mp hmem
    have hrec : recognizedOutput o = true := by
      rw [process_cell_output] at hpc
      exact List.find?_some hpc
    refine ⟨hrec, ?_⟩
    intro herr
    rw [recognizedOutput, herr] at hrec
    simp at hrec

/-- An error output followed by a stream output, exercising the
first-recognized-output selection. -/
def outErrW : Output := { output_type := "error", payload := "traceback".toList }

/-- A stream output used as the retained output in the C10 witness. -/
def outStreamW : Output := { output_type := "stream", payload := "hello".toList }

/-- A code cell whose first output is an error and whose second is a
stream output. -/
def cellWithOutputsW : Cell :=
  { cell_type := "code", source := "print(1)".toList, outputs := [outErrW, outStreamW] }

/-- C10, witness: on a concrete cell the retained entry skips the error
output and keeps the first stream output. -/
theorem extract_outputs_invariant_witness :
    (extract_notebook_content [cellWithOutputsW]).outputs[0]? =
        some (some outStreamW) ∧
    recognizedOutput outStreamW = true ∧ ¬ outStreamW.output_type = "error" := by
  constructor
  · rw [(extract_outputs_invariant [cellWithOutputsW]).2.1 0]
    decide
  · exact (extract_outputs_invariant [cellWithOutputsW]).2.2 outStreamW (by decide)

/-- The markdown cell of the classification_example.ipynb sample
(src/generate_site.py lines 93-97). -/
def irisMarkdownCell : Cell :=
  { cell_type := "markdown", source := "# Iris Classification Example".toList,
    outputs := [] }

/-- The code cell of the classification_example.ipynb sample
(src/generate_site.py lines 98-101). -/
def irisCodeCell : Cell :=
  { cell_type := "code",
    source := ("from sklearn.datasets import load_iris\nfrom sklearn.model_selection import train_test_split\nfrom sklearn.linear_model import LogisticRegression").toList,
    outputs := [] }

set_option maxRecDepth 10000 in
/-- C9: on the sample notebook with one markdown cell and one code cell
importing LogisticRegression and train_test_split, extraction and
classification leave model_type unset (the lower-cased text has no
logistic_regression substring), training and evaluation false, and
yield exactly one markdown cell and one code cell. -/
theorem iris_sample_classification :
    (extract_notebook_content [irisMarkdownCell, irisCodeCell]).ml_components.model_type
        = none ∧
    (extract_notebook_content [irisMarkdownCell, irisCodeCell]).ml_components.training
        = false ∧
    (extract_notebook_content [irisMarkdownCell, irisCodeCell]).ml_components.evaluation
        = false ∧
    (extract_notebook_content [irisMarkdownCell, irisCodeCell]).markdown_cells.length
        = 1 ∧
    (extract_notebook_content [irisMarkdownCell, irisCodeCell]).code_cells.length
        = 1 := by decide

/-- Outcome of one call to the Hugging Face inference collaborator as
seen by query_hf_api (src/main.py lines 148-158): either the
generated_text of the first array element of a 2xx JSON response, or
any raised exception (transport error, non-2xx status from
raise_for_status, or a malformed body). -/
inductive ApiResult where
  | ok (generated_text : List Char)
  | err
deriving DecidableEq

/-- The fixed fallback string of query_hf_api (src/main.py line 158). -/
def fallbackMsg : List Char :=
  "Unable to generate explanation due to API error.".toList

/-- query_hf_api (src/main.py lines 133-158), with the remote endpoint
modelled as a deterministic map from prompt to call outcome. -/
def query_hf_api (api : List Char → ApiResult) (prompt : List Char) : List Char :=
  match api prompt with
  | ApiResult.ok t => t
  | ApiResult.err => fallbackMsg

/-- Textual rendering of the ml_components dictionary interpolated into
the overview prompt (src/main.py line 163). The exact Python dict-repr
format is abstracted to a fixed field-by-field rendering; no claim
inspects this text, only which prompt each call receives. -/
def renderComponents (m : MLComponents) : List Char :=
  "preprocessing=".toList ++ (List.intercalate ", ".toList m.preprocessing) ++
  ", model_type=".toList ++
    (match m.model_type with
     | some s => s.toList
     | none => "None".toList) ++
  ", training=".toList ++ (if m.training then "True".toList else "False".toList) ++
  ", evaluation=".toList ++ (if m.evaluation then "True".toList else "False".toList)

/-- The overview prompt (src/main.py lines 161-164). -/
def overview_prompt (content : ExtractedContent) : List Char :=
  ("Provide a concise, beginner-friendly overview of this machine learning project. Project details: ").toList
    ++ renderComponents content.ml_components

/-- The technical prompt (src/main.py lines 168-172): embeds the
space-joined concatenation of at most the first three code cells. -/
def technical_prompt (content : ExtractedContent) : List Char :=
  ("Explain the technical implementation of this machine learning solution in a clear, accessible manner. Break down key code components and their purpose. Code snippets: ").toList
    ++ List.intercalate [' '] (content.code_cells.take 3)

/-- The ExplanationPair returned by generate_explanation. -/
structure ExplanationPair where
  overview : List Char
  technical_details : List Char
deriving DecidableEq

/-- NotebookProcessor.generate_explanation (src/main.py lines 126-178):
two independent calls to the inference collaborator, one per prompt. -/
def generate_explanation (api : List Char → ApiResult)
    (content : ExtractedContent) : ExplanationPair :=
  { overview := query_hf_api api (overview_prompt content),
    technical_details := query_hf_api api (technical_prompt content) }

/-- C4: when the call built from the overview prompt fails while the
call for the technical prompt succeeds, the result has exactly the
fixed fallback string as overview and the text returned by the
successful call as technical_details; the failed call does not alter
the other field. -/
theorem generate_explanation_overview_failure_isolated
    (api : List Char → ApiResult) (content : ExtractedContent) (t : List Char)
    (hov : api (overview_prompt content) = ApiResult.err)
    (hte : api (technical_prompt content) = ApiResult.ok t) :
    generate_explanation api content =
      { overview := fallbackMsg, technical_details := t } := by
  simp [generate_explanation, query_hf_api, hov, hte]

/-- A concrete inference collaborator that fails on every prompt except
the technical prompt of the empty notebook. -/
def apiOverviewFails : List Char → ApiResult := fun p =>
  if p = technical_prompt (extract_notebook_content []) then
    ApiResult.ok "generated text".toList
  else ApiResult.err

set_option maxRecDepth 10000 in
/-- C4, witness: the one-sided failure theorem applied at the empty
notebook and the collaborator above. -/
theorem generate_explanation_overview_failure_isolated_witness :
    generate_explanation apiOverviewFails (extract_notebook_content []) =
      { overview := fallbackMsg, technical_details := "generated text".toList } :=
  generate_explanation_overview_failure_isolated apiOverviewFails
    (extract_notebook_content []) "generated text".toList (by decide) (by decide)

/-- Fuel-driven core of Python str.replace: scan left to right, on a
match of pat emit rep and resume after the matched segment. Fuel equals
the length of the scanned text at the top-level call, which is enough
for every step (each step consumes at least one character). -/
def replaceAllFuel (pat rep : List Char) : Nat → List Char → List Char
  | _, [] => []
  | 0, s => s
  | fuel + 1, c :: rest =>
    if pat ≠ [] ∧ pat <+: (c :: rest) then
      rep ++ replaceAllFuel pat rep fuel ((c :: rest).drop pat.length)
    else
      c :: replaceAllFuel pat rep fuel rest

/-- Python str.replace(pat, rep) on List Char (non-empty pattern,
non-overlapping, left to right). -/
def replaceAll (pat rep s : List Char) : List Char :=
  replaceAllFuel pat rep s.length s

/-- A branch or directory content, as the map from file path to file
content (association list, first binding wins). -/
abbrev FileMap := List (List Char × List Char)

/-- Lookup in a FileMap. -/
def lookupKV (m : FileMap) (k : List Char) : Option (List Char) :=
  match m with
  | [] => none
  | (k0, v0) :: rest => if k0 = k then some v0 else lookupKV rest k

/-- Write-through update of a FileMap: replace the binding of k when
present, append it otherwise. -/
def upsert (m : FileMap) (k v : List Char) : FileMap :=
  match m with
  | [] => [(k, v)]
  | (k0, v0) :: rest => if k0 = k then (k, v) :: rest else (k0, v0) :: upsert rest k v

lemma lookupKV_upsert (m : FileMap) (k v k2 : List Char) :
    lookupKV (upsert m k v) k2 = if k = k2 then some v else lookupKV m k2 := by
  induction m with
  | nil => simp [upsert, lookupKV]
  | cons kv rest ih =>
    obtain ⟨k0, v0⟩ := kv
    by_cases h0 : k0 = k
    · subst h0
      by_cases h2 : k0 = k2 <;> simp [upsert, lookupKV, h2]
    · by_cases h2 : k0 = k2
      · subst h2
        have hne : ¬ k = k0 := fun h => h0 h.symm
        simp [upsert, lookupKV, h0, hne]
      · simp [upsert, lookupKV, h0, h2, ih]

/-- The state of the remote repository: the files at the tip of the
primary branch, and the gh-pages branch content when that branch
exists. Creating a git ref at the primary tip yields a branch holding
exactly the primary tip's files. -/
structure RemoteRepo where
  mainFiles : FileMap
  ghPages : Option FileMap
deriving DecidableEq

/-- The state the GitHubDeployer acts on: the local working directory
(upload directory and templates, one path-keyed map) and the remote
repository. -/
structure DeployerState where
  localFiles : FileMap
  repo : RemoteRepo
deriving DecidableEq

/-- Local path of the canonical index template
(src/main.py line 212). -/
def templateIndexPath : List Char := "templates/index.html".toList

/-- Local path of the index copy in the upload directory
(src/main.py line 285). -/
def localIndexPath : List Char := "uploaded_notebooks/index.html".toList

/-- Remote path of the index document on the gh-pages branch
(src/main.py lines 330-344). -/
def indexRemotePath : List Char := "index.html".toList

/-- The static index shell written by _create_index_html (src/main.py
lines 215-282), abbreviated: it is a fixed HTML document with a
client-side directory listing, and no claim inspects its text, only
its identity as the index document content. -/
def indexTemplateHtml : List Char :=
  ("<!DOCTYPE html><html><head><title>Auto Notebook Visualizations</title></head><body><h1>ML Notebook Visualizations</h1><ul id=notebook-list></ul><script>loadNotebooks();</script></body></html>").toList

/-- GitHubDeployer._create_index_html (src/main.py lines 209-288):
write the template file if absent, then copy it over the index file in
the upload directory. -/
def create_index_html (st : DeployerState) : DeployerState :=
  let lf :=
    if (lookupKV st.localFiles templateIndexPath).isSome then st.localFiles
    else upsert st.localFiles templateIndexPath indexTemplateHtml
  let tc := (lookupKV lf templateIndexPath).getD indexTemplateHtml
  { st with localFiles := upsert lf localIndexPath tc }

/-- GitHubDeployer._ensure_gh_pages_branch (src/main.py lines 198-207):
when gh-pages is absent, create the ref at the tip of main (the new
branch holds the files of the main tip) and run _create_index_html,
which writes only local files. -/
def ensure_gh_pages_branch (st : DeployerState) : DeployerState :=
  match st.repo.ghPages with
  | some _ => st
  | none =>
    create_index_html
      { st with repo := { st.repo with ghPages := some st.repo.mainFiles } }

/-- GitHubDeployer.__init__ (src/main.py lines 181-196): always run
_create_index_html, then ensure the gh-pages branch. -/
def deployerInit (st : DeployerState) : DeployerState :=
  ensure_gh_pages_branch (create_index_html st)

/-- Prefix of every page path: the upload directory. -/
def uploadDirC : List Char := "uploaded_notebooks".toList

/-- The local file path of a deployed page (src/main.py line 298):
os.path.join of the upload directory with the notebook name whose
.ipynb occurrences are replaced by .html. -/
def filePathOf (name : List Char) : List Char :=
  uploadDirC ++ ('/' :: replaceAll ".ipynb".toList ".html".toList name)

/-- The repo path of a deployed page (src/main.py line 305): the local
path with every backslash replaced by a slash. -/
def repoPathOf (name : List Char) : List Char :=
  replaceAll ['\\'] ['/'] (filePathOf name)

/-- Fault switches for the six remote calls made by one deploy_content
run; a set switch makes that call raise github.GithubException. -/
structure RemoteFaults where
  getPage : Bool
  updatePage : Bool
  createPage : Bool
  getIndex : Bool
  updateIndex : Bool
  createIndex : Bool
deriving DecidableEq

/-- A healthy remote: no call fails. -/
def noFaults : RemoteFaults :=
  { getPage := false, updatePage := false, createPage := false,
    getIndex := false, updateIndex := false, createIndex := false }

/-- repo.get_contents(path, ref=gh-pages): the stored content when the
call succeeds; none models github.GithubException (file absent, branch
absent, or injected fault). -/
def remoteGet (r : RemoteRepo) (fault : Bool) (path : List Char) :
    Option (List Char) :=
  if fault then none
  else match r.ghPages with
    | none => none
    | some files => lookupKV files path

/-- repo.update_file / repo.create_file on the gh-pages branch: on
success both store the content at the path; none models
github.GithubException (branch absent or injected fault). -/
def remoteWrite (r : RemoteRepo) (fault : Bool) (path content : List Char) :
    Option RemoteRepo :=
  if fault then none
  else match r.ghPages with
    | none => none
    | some files => some { r with ghPages := some (upsert files path content) }

/-- Which arm of the create-or-update publish a page took. -/
inductive PageOp where
  | created
  | updated
deriving DecidableEq

/-- An exception propagated out of deploy_content. -/
inductive DeployError where
  | githubEx
  | localIndexMissing
deriving DecidableEq

/-- The index block of deploy_content (src/main.py lines 325-344): read
the local index copy (raising when it is missing), then create-or-update
index.html on gh-pages; an update failure falls to the create arm, a
create failure propagates. -/
def indexPhase (f : RemoteFaults) (st : DeployerState) (op : PageOp) :
    DeployerState × Except DeployError PageOp :=
  match lookupKV st.localFiles localIndexPath with
  | none => (st, Except.error DeployError.localIndexMissing)
  | some idxContent =>
    match remoteGet st.repo f.getIndex indexRemotePath with
    | some _sha =>
      match remoteWrite st.repo f.updateIndex indexRemotePath idxContent with
      | some r => ({ st with repo := r }, Except.ok op)
      | none =>
        match remoteWrite st.repo f.createIndex indexRemotePath idxContent with
        | some r => ({ st with repo := r }, Except.ok op)
        | none => (st, Except.error DeployError.githubEx)
    | none =>
      match remoteWrite st.repo f.createIndex indexRemotePath idxContent with
      | some r => ({ st with repo := r }, Except.ok op)
      | none => (st, Except.error DeployError.githubEx)

/-- The remote block of deploy_content (src/main.py lines 302-347), run
on the state after the local write: create-or-update the page on
gh-pages (a GithubException from get_contents or update_file falls to
the create arm; a create failure propagates), then the index block. -/
def deployRemotePhase (f : RemoteFaults) (st1 : DeployerState)
    (content name : List Char) : DeployerState × Except DeployError PageOp :=
  match remoteGet st1.repo f.getPage (repoPathOf name) with
  | some _sha =>
    match remoteWrite st1.repo f.updatePage (repoPathOf name) content with
    | some r => indexPhase f { st1 with repo := r } PageOp.updated
    | none =>
      match remoteWrite st1.repo f.createPage (repoPathOf name) content with
      | some r => indexPhase f { st1 with repo := r } PageOp.created
      | none => (st1, Except.error DeployError.githubEx)
  | none =>
    match remoteWrite st1.repo f.createPage (repoPathOf name) content with
    | some r => indexPhase f { st1 with repo := r } PageOp.created
    | none => (st1, Except.error DeployError.githubEx)

/-- GitHubDeployer.deploy_content (src/main.py lines 290-347): write
the page locally (unconditional overwrite), then run the remote block.
The returned state is the world after the call whether or not an
exception propagated. -/
def deploy_content (f : RemoteFaults) (st : DeployerState)
    (content name : List Char) : DeployerState × Except DeployError PageOp :=
  deployRemotePhase f
    { st with localFiles := upsert st.localFiles (filePathOf name) content }
    content name

/-- The content stored at a path of the gh-pages branch, none when the
branch or the file is absent. -/
def remoteAt (st : DeployerState) (path : List Char) : Option (List Char) :=
  match st.repo.ghPages with
  | none => none
  | some files => lookupKV files path

lemma create_index_html_repo (st : DeployerState) :
    (create_index_html st).repo = st.repo := rfl

lemma create_index_html_localIndex (st : DeployerState) :
    (lookupKV (create_index_html st).localFiles localIndexPath).isSome = true := by
  simp [create_index_html, lookupKV_upsert]

lemma deployerInit_ghPages_isSome (st : DeployerState) :
    (deployerInit st).repo.ghPages.isSome = true := by
  rw [deployerInit, ensure_gh_pages_branch]
  cases h : (create_index_html st).repo.ghPages with
  | some fs => simp [h]
  | none => simp [create_index_html_repo]

lemma deployerInit_created_from_main (st : DeployerState)
    (h : st.repo.ghPages = none) :
    (deployerInit st).repo.ghPages = some st.repo.mainFiles := by
  rw [deployerInit, ensure_gh_pages_branch]
  rw [create_index_html_repo] at *
  simp [h, create_index_html_repo]

lemma deployerInit_keeps_branch (st : DeployerState)
    (h : st.repo.ghPages.isSome = true) :
    (deployerInit st).repo.ghPages = st.repo.ghPages := by
  obtain ⟨fs, hfs⟩ := Option.isSome_iff_exists.mp h
  rw [deployerInit, ensure_gh_pages_branch]
  simp [create_index_html_repo, hfs]

lemma deployerInit_localIndex (st : DeployerState) :
    (lookupKV (deployerInit st).localFiles localIndexPath).isSome = true := by
  rw [deployerInit, ensure_gh_pages_branch]
  cases h : (create_index_html st).repo.ghPages with
  | some fs => simp [create_index_html_localIndex]
  | none => simp [create_index_html_localIndex]

lemma remoteWrite_ghPages_isSome (r : RemoteRepo) (fault : Bool)
    (p c : List Char) (r2 : RemoteRepo)
    (h : remoteWrite r fault p c = some r2) : r2.ghPages.isSome = true := by
  rw [remoteWrite] at h
  split at h
  · exact absurd h (by simp)
  · cases hg : r.ghPages with
    | none => rw [hg] at h; exact absurd h (by simp)
    | some files =>
      rw [hg] at h
      cases h
      simp

lemma indexPhase_localFiles (f : RemoteFaults) (st : DeployerState) (op : PageOp) :
    ((indexPhase f st op).1).localFiles = st.localFiles := by
  rw [indexPhase]
  repeat' split
  all_goals rfl

lemma deployRemotePhase_localFiles (f : RemoteFaults) (st : DeployerState)
    (content name : List Char) :
    ((deployRemotePhase f st content name).1).localFiles = st.localFiles := by
  rw [deployRemotePhase]
  repeat' split
  all_goals simp [indexPhase_localFiles]

lemma deploy_content_localFiles (f : RemoteFaults) (st : DeployerState)
    (content name : List Char) :
    ((deploy_content f st content name).1).localFiles =
      upsert st.localFiles (filePathOf name) content := by
  rw [deploy_content, deployRemotePhase_localFiles]

lemma indexPhase_ghPages_isSome (f : RemoteFaults) (st : DeployerState) (op : PageOp)
    (h : st.repo.ghPages.isSome = true) :
    ((indexPhase f st op).1).repo.ghPages.isSome = true := by
  rw [indexPhase]
  repeat' split
  all_goals first
    | exact h
    | (rename_i r hw; exact remoteWrite_ghPages_isSome _ _ _ _ r hw)

lemma deploy_content_ghPages_isSome (f : RemoteFaults) (st : DeployerState)
    (content name : List Char) (h : st.repo.ghPages.isSome = true) :
    ((deploy_content f st content name).1).repo.ghPages.isSome = true := by
  rw [deploy_content, deployRemotePhase]
  repeat' split
  all_goals first
    | exact h
    | (apply indexPhase_ghPages_isSome
       rename_i r hw
       exact remoteWrite_ghPages_isSome _ _ _ _ r hw)

/-- A repository whose primary tip is empty, with no gh-pages branch
and an empty working directory. -/
def stEmptyRepo : DeployerState :=
  { localFiles := [], repo := { mainFiles := [], ghPages := none } }

/-- C7, counterexample: on a repository whose primary tip holds no
files, construction creates the gh-pages branch but the branch content
is empty; in particular it does not contain the index document, which
the constructor writes only to the local directories. -/
theorem init_branch_lacks_index_counterexample :
    stEmptyRepo.repo.ghPages = none ∧
    (deployerInit stEmptyRepo).repo.ghPages = some ([] : FileMap) ∧
    lookupKV ([] : FileMap) indexRemotePath = none :=
  ⟨rfl, rfl, rfl⟩

/-- C7, amended: on construction, if the target branch does not exist
it is created from the tip of the primary branch (it then holds the
primary tip files) and the index document is written to the local
template and upload directories; after construction the branch exists,
an already existing branch is left unchanged, and no publish ever
removes the branch. -/
theorem deployer_init_branch_amended (st : DeployerState) :
    (st.repo.ghPages = none →
        (deployerInit st).repo.ghPages = some st.repo.mainFiles) ∧
    (deployerInit st).repo.ghPages.isSome = true ∧
    (lookupKV (deployerInit st).localFiles localIndexPath).isSome = true ∧
    (st.repo.ghPages.isSome = true →
        (deployerInit st).repo.ghPages = st.repo.ghPages) ∧
    (∀ f content name, st.repo.ghPages.isSome = true →
        ((deploy_content f st content name).1).repo.ghPages.isSome = true) :=
  ⟨deployerInit_created_from_main st,
   deployerInit_ghPages_isSome st,
   deployerInit_localIndex st,
   deployerInit_keeps_branch st,
   fun f content name h => deploy_content_ghPages_isSome f st content name h⟩

/-- A repository with an existing, empty gh-pages branch. -/
def stWithBranch : DeployerState :=
  { localFiles := [], repo := { mainFiles := [], ghPages := some [] } }

/-- C7, witness: the amended theorem at concrete repositories, once for
branch creation from the primary tip and once for branch survival of a
publish. -/
theorem deployer_init_branch_amended_witness :
    (deployerInit stEmptyRepo).repo.ghPages = some stEmptyRepo.repo.mainFiles ∧
    ((deploy_content noFaults stWithBranch "p".toList
        "n.ipynb".toList).1).repo.ghPages.isSome = true :=
  ⟨(deployer_init_branch_amended stEmptyRepo).1 rfl,
   (deployer_init_branch_amended stWithBranch).2.2.2.2 noFaults "p".toList
     "n.ipynb".toList rfl⟩

/-- C8: whenever a remote-tier operation of a publish fails after the
local write, the exception reaches the caller as an error result, and
the local copy in the upload directory still holds the content that
was written. -/
theorem deploy_remote_failure_local_persists (f : RemoteFaults)
    (st : DeployerState) (content name : List Char) (e : DeployError)
    (h : (deploy_content f st content name).2 = Except.error e) :
    (deploy_content f st content name).2 = Except.error e ∧
    lookupKV ((deploy_content f st content name).1).localFiles
        (filePathOf name) = some content := by
  refine ⟨h, ?_⟩
  rw [deploy_content_localFiles, lookupKV_upsert]
  simp

/-- C8, witness: deploying against a repository with no gh-pages branch
makes every remote call raise; the error propagates and the local page
file persists. -/
theorem deploy_remote_failure_local_persists_witness :
    (deploy_content noFaults stEmptyRepo "page".toList "nb.ipynb".toList).2 =
        Except.error DeployError.githubEx ∧
    lookupKV ((deploy_content noFaults stEmptyRepo "page".toList
        "nb.ipynb".toList).1).localFiles (filePathOf "nb.ipynb".toList) =
        some "page".toList :=
  deploy_remote_failure_local_persists noFaults stEmptyRepo "page".toList
    "nb.ipynb".toList DeployError.githubEx (by rfl)

lemma noFaults_getPage : noFaults.getPage = false := rfl

lemma noFaults_updatePage : noFaults.updatePage = false := rfl

lemma noFaults_createPage : noFaults.createPage = false := rfl

lemma noFaults_getIndex : noFaults.getIndex = false := rfl

lemma noFaults_updateIndex : noFaults.updateIndex = false := rfl

lemma noFaults_createIndex : noFaults.createIndex = false := rfl

lemma indexPhase_noFaults_eq (st : DeployerState) (op : PageOp) (gfs : FileMap)
    (idxc : List Char) (hb : st.repo.ghPages = some gfs)
    (hidx : lookupKV st.localFiles localIndexPath = some idxc) :
    indexPhase noFaults st op =
      ({ st with repo :=
          { st.repo with ghPages := some (upsert gfs indexRemotePath idxc) } },
       Except.ok op) := by
  rw [indexPhase, hidx]
  cases hkv : lookupKV gfs indexRemotePath with
  | some sha =>
    simp [remoteGet, remoteWrite, noFaults_getIndex, noFaults_updateIndex, hb, hkv]
  | none =>
    simp [remoteGet, remoteWrite, noFaults_getIndex, noFaults_createIndex, hb, hkv]

lemma deploy_noFaults_eq (st : DeployerState) (fs : FileMap)
    (content name : List Char) (hb : st.repo.ghPages = some fs)
    (hidx : (lookupKV st.localFiles localIndexPath).isSome = true) :
    deploy_content noFaults st content name =
      ({ localFiles := upsert st.localFiles (filePathOf name) content,
         repo := { st.repo with
                   ghPages := some (upsert (upsert fs (repoPathOf name) content) indexRemotePath ((lookupKV (upsert st.localFiles (filePathOf name) content) localIndexPath).getD [])) } },
       Except.ok (if (lookupKV fs (repoPathOf name)).isSome
                  then PageOp.updated else PageOp.created)) := by
  have hidx1 : (lookupKV (upsert st.localFiles (filePathOf name) content)
      localIndexPath).isSome = true := by
    rw [lookupKV_upsert]
    split
    · rfl
    · exact hidx
  obtain ⟨idxc, hidxc⟩ := Option.isSome_iff_exists.mp hidx1
  rw [deploy_content, deployRemotePhase]
  cases hkv : lookupKV fs (repoPathOf name) with
  | some sha =>
    simp only [remoteGet, remoteWrite, noFaults_getPage, noFaults_updatePage,
      hb, hkv, Bool.false_eq_true, if_false]
    rw [indexPhase_noFaults_eq _ _ (upsert fs (repoPathOf name) content) idxc
      rfl hidxc]
    simp [hidxc]
  | none =>
    simp only [remoteGet, remoteWrite, noFaults_getPage, noFaults_createPage,
      hb, hkv, Bool.false_eq_true, if_false]
    rw [indexPhase_noFaults_eq _ _ (upsert fs (repoPathOf name) content) idxc
      rfl hidxc]
    simp [hidxc]

lemma filePathOf_cons (name : List Char) :
    filePathOf name = 'u' :: ("ploaded_notebooks".toList ++
      ('/' :: replaceAll ".ipynb".toList ".html".toList name)) := rfl

lemma replaceAll_keep_head (c : Char) (t : List Char) (h : ¬ c = '\\') :
    replaceAll ['\\'] ['/'] (c :: t) =
      c :: replaceAllFuel ['\\'] ['/'] t.length t := by
  rw [replaceAll, List.length_cons, replaceAllFuel]
  rw [if_neg]
  intro hpre
  rcases hpre with ⟨h1, h2⟩
  rcases List.cons_prefix_cons.mp h2 with ⟨h3, h4⟩
  exact h h3.symm

lemma repoPathOf_head (name : List Char) :
    (repoPathOf name).head? = some 'u' := by
  rw [repoPathOf, filePathOf_cons, replaceAll_keep_head 'u' _ (by decide)]
  rfl

lemma repoPathOf_ne_index (name : List Char) :
    ¬ indexRemotePath = repoPathOf name := by
  intro h
  have h1 : indexRemotePath.head? = some 'u' := by rw [h, repoPathOf_head]
  rw [show indexRemotePath.head? = some 'i' from rfl] at h1
  exact absurd (Option.some.inj h1) (by decide)

/-- C5: publishing the same page (same name, same HTML body) twice in
succession on a healthy remote is idempotent with respect to the
gh-pages branch: the remote content at the page's path after the second
publish equals the content after the first, and the second publish
takes the update-if-present arm keyed by path equality. -/
theorem deploy_content_idempotent (st : DeployerState) (fs : FileMap)
    (content name : List Char) (hb : st.repo.ghPages = some fs)
    (hidx : (lookupKV st.localFiles localIndexPath).isSome = true) :
    remoteAt ((deploy_content noFaults
        ((deploy_content noFaults st content name).1) content name).1)
        (repoPathOf name)
      = remoteAt ((deploy_content noFaults st content name).1)
        (repoPathOf name) ∧
    ((deploy_content noFaults ((deploy_content noFaults st content name).1)
        content name).2) = Except.ok PageOp.updated := by
  have hrp := repoPathOf_ne_index name
  have hidx1 : (lookupKV (upsert st.localFiles (filePathOf name) content)
      localIndexPath).isSome = true := by
    rw [lookupKV_upsert]
    split
    · rfl
    · exact hidx
  have h1 := deploy_noFaults_eq st fs content name hb hidx
  have hfs1_rp : lookupKV (upsert (upsert fs (repoPathOf name) content)
      indexRemotePath ((lookupKV (upsert st.localFiles (filePathOf name)
        content) localIndexPath).getD [])) (repoPathOf name) = some content := by
    rw [lookupKV_upsert, if_neg hrp, lookupKV_upsert, if_pos rfl]
  have h2 := deploy_noFaults_eq
    { localFiles := upsert st.localFiles (filePathOf name) content,
      repo := { st.repo with
                ghPages := some (upsert (upsert fs (repoPathOf name) content) indexRemotePath ((lookupKV (upsert st.localFiles (filePathOf name) content) localIndexPath).getD [])) } }
    (upsert (upsert fs (repoPathOf name) content) indexRemotePath
      ((lookupKV (upsert st.localFiles (filePathOf name) content)
        localIndexPath).getD []))
    content name rfl hidx1
  rw [h1]
  constructor
  · rw [h2]
    simp only [remoteAt, hfs1_rp]
    rw [lookupKV_upsert, if_neg hrp, lookupKV_upsert, if_pos rfl]
  · rw [h2]
    simp [hfs1_rp]

/-- A deployer state with an existing empty gh-pages branch and a local
index copy, ready for publishing. -/
def stReadyW : DeployerState :=
  { localFiles := [(localIndexPath, "idx".toList)],
    repo := { mainFiles := [], ghPages := some [] } }

/-- C5, witness: the idempotence theorem at a concrete state, page and
name. -/
theorem deploy_content_idempotent_witness :
    remoteAt ((deploy_content noFaults
        ((deploy_content noFaults stReadyW "page".toList "nb.ipynb".toList).1)
        "page".toList "nb.ipynb".toList).1) (repoPathOf "nb.ipynb".toList)
      = remoteAt ((deploy_content noFaults stReadyW "page".toList
        "nb.ipynb".toList).1) (repoPathOf "nb.ipynb".toList) ∧
    ((deploy_content noFaults
        ((deploy_content noFaults stReadyW "page".toList "nb.ipynb".toList).1)
        "page".toList "nb.ipynb".toList).2) = Except.ok PageOp.updated :=
  deploy_content_idempotent stReadyW [] "page".toList "nb.ipynb".toList rfl
    (by decide)

/-- The uploaded file of a multipart form field: its client-supplied
filename (request.files access in src/main.py lines 363-368). -/
structure UploadedFile where
  filename : List Char
deriving DecidableEq

/-- An incoming POST request to the upload endpoint: the content of the
multipart field named notebook, when present. -/
structure UploadRequest where
  notebookField : Option UploadedFile
deriving DecidableEq

/-- The success body of the upload endpoint (src/main.py line 392). -/
def successMsg : List Char :=
  "Notebook processed and deployed successfully!".toList

/-- The POST arm of upload_notebook (src/main.py lines 360-394).
External collaborators are parameters: sfn is werkzeug
secure_filename; validate is NotebookProcessor.validate_notebook on
the saved path (it wraps the external parser and the filesystem);
deployResult is the outcome of the downstream
extract-explain-render-deploy pipeline, whose only failing step is
GitHubDeployer.deploy_content. The result is the plain-text body and
status, or the propagated pipeline exception (rendered by Flask as a
500). -/
def upload_notebook (sfn : List Char → List Char)
    (validate : List Char → Bool) (deployResult : Except DeployError Unit)
    (req : UploadRequest) : Except DeployError (List Char × Nat) :=
  match req.notebookField with
  | none => Except.ok ("No file uploaded".toList, 400)
  | some file =>
    if file.filename = [] then Except.ok ("No selected file".toList, 400)
    else
      if validate (uploadDirC ++ ('/' :: sfn file.filename)) then
        match deployResult with
        | Except.ok _ => Except.ok (successMsg, 200)
        | Except.error e => Except.error e
      else Except.ok ("Invalid notebook".toList, 400)

/-- C6: status routing of the upload endpoint on POST. A missing
notebook field answers 400 No file uploaded independently of every
collaborator (no further processing); an empty filename answers 400 No
selected file; a saved file that does not parse answers 400 Invalid
notebook; otherwise the pipeline runs and its success answers 200. -/
theorem upload_notebook_status_routing (sfn : List Char → List Char)
    (validate : List Char → Bool) (d : Except DeployError Unit)
    (req : UploadRequest) :
    (req.notebookField = none →
        upload_notebook sfn validate d req =
          Except.ok ("No file uploaded".toList, 400) ∧
        (∀ sfn2 validate2 d2, upload_notebook sfn2 validate2 d2 req =
          upload_notebook sfn validate d req)) ∧
    (∀ file, req.notebookField = some file → file.filename = [] →
        upload_notebook sfn validate d req =
          Except.ok ("No selected file".toList, 400)) ∧
    (∀ file, req.notebookField = some file → ¬ file.filename = [] →
        validate (uploadDirC ++ ('/' :: sfn file.filename)) = false →
        upload_notebook sfn validate d req =
          Except.ok ("Invalid notebook".toList, 400)) ∧
    (∀ file, req.notebookField = some file → ¬ file.filename = [] →
        validate (uploadDirC ++ ('/' :: sfn file.filename)) = true →
        d = Except.ok () →
        upload_notebook sfn validate d req = Except.ok (successMsg, 200)) := by
  refine ⟨?_, ?_, ?_, ?_⟩
  · intro h
    rw [upload_notebook.eq_def, h]
    exact ⟨rfl, fun sfn2 validate2 d2 => by
      simp only [upload_notebook.eq_def, h]⟩
  · intro file hf hname
    rw [upload_notebook.eq_def, hf]
    simp [hname]
  · intro file hf hname hv
    rw [upload_notebook.eq_def, hf]
    simp [hname, hv]
  · intro file hf hname hv hd
    rw [upload_notebook.eq_def, hf, hd]
    simp [hname, hv]

/-- C6, witness: the endpoint theorem at concrete requests, one per
response clause. -/
theorem upload_notebook_status_routing_witness :
    upload_notebook id (fun _ => true) (Except.ok ())
        { notebookField := none } =
      Except.ok ("No file uploaded".toList, 400) ∧
    upload_notebook id (fun _ => true) (Except.ok ())
        { notebookField := some { filename := [] } } =
      Except.ok ("No selected file".toList, 400) ∧
    upload_notebook id (fun _ => false) (Except.ok ())
        { notebookField := some { filename := "nb.ipynb".toList } } =
      Except.ok ("Invalid notebook".toList, 400) ∧
    upload_notebook id (fun _ => true) (Except.ok ())
        { notebookField := some { filename := "nb.ipynb".toList } } =
      Except.ok (successMsg, 200) :=
  ⟨((upload_notebook_status_routing id (fun _ => true) (Except.ok ())
      { notebookField := none }).1 rfl).1,
   (upload_notebook_status_routing id (fun _ => true) (Except.ok ())
      { notebookField := some { filename := [] } }).2.1
     { filename := [] } rfl rfl,
   (upload_notebook_status_routing id (fun _ => false) (Except.ok ())
      { notebookField := some { filename := "nb.ipynb".toList } }).2.2.1
     { filename := "nb.ipynb".toList } rfl (by decide) rfl,
   (upload_notebook_status_routing id (fun _ => true) (Except.ok ())
      { notebookField := some { filename := "nb.ipynb".toList } }).2.2.2
     { filename := "nb.ipynb".toList } rfl (by decide) rfl rfl⟩
